import Mathlib

/-!
Shallow embedding of the browser-pool MCP server (`src/index.js`).

The server keeps a JS `Map` `instances : port -> { process, client, lastUsed,
sessionId }`, a rotating cursor `nextPort`, and a per-process session
assignment (`assignedPort` / `assignedClient`).  A JS `Map` iterates in
insertion order and `set` on a fresh key appends, so the pool is modelled as an
insertion-ordered association list.  Process handles, MCP client handles and
session-id strings are opaque to the pool logic and are modelled as `Nat`
identifiers.  Timestamps (`Date.now()`) are `Nat` milliseconds.  The OS port
probe (`isPortInUse`), the readiness wait (`waitForServer`), the client
handshake (`createMcpClient`) and the remote `client.callTool` are external
effects: each operation takes their outcomes as an explicit environment.
`waitForServer` itself is additionally modelled in full, over an oracle giving
each health probe's outcome.
-/

namespace BrowserPool

/-- Configuration constant `BASE_PORT` (src/index.js line 31). -/
def BASE_PORT : Nat := 9000

/-- Configuration constant `MAX_INSTANCES` (line 32). -/
def MAX_INSTANCES : Nat := 10

/-- Configuration constant `INSTANCE_TIMEOUT_MS` (line 33): 30 minutes. -/
def INSTANCE_TIMEOUT_MS : Nat := 30 * 60 * 1000

/-- Interval of the cleanup timer (line 277): 60 seconds. -/
def CLEANUP_INTERVAL_MS : Nat := 60000

/-- One value of the `instances` map (line 177-182): the spawned process handle is
not observed by the pool logic beyond being killed, so only the client handle,
the `lastUsed` timestamp and the owning session id are kept. -/
structure Instance where
  client : Nat
  lastUsed : Nat
  sessionId : Nat
  deriving DecidableEq, Repr

/-- The `instances` map (line 36), as an insertion-ordered association list
`port ↦ Instance`. -/
abbrev Pool := List (Nat × Instance)

/-- `instances.get(port)` : the first (and, for live states, only) entry at `port`. -/
def lookupInst (p : Nat) (l : Pool) : Option Instance :=
  (l.find? (fun e => e.1 == p)).map (fun e => e.2)

/-- `instances.has(port)`. -/
def hasPort (l : Pool) (p : Nat) : Bool :=
  l.any (fun e => e.1 == p)

/-- Mutation `instance.lastUsed = now` of the entry at `p` (lines 113, 215). -/
def setLastUsed (p now : Nat) (l : Pool) : Pool :=
  l.map (fun e => if e.1 == p then (e.1, { e.2 with lastUsed := now }) else e)

/-- `instances.delete(port)` (line 201). -/
def removePort (p : Nat) (l : Pool) : Pool :=
  l.filter (fun e => e.1 != p)

/-- The module-level mutable state (lines 36-42). -/
structure State where
  instances : Pool
  nextPort : Nat
  assignedPort : Option Nat
  assignedClient : Option Nat
  deriving DecidableEq, Repr

/-- The state right after module initialisation (lines 36-42). -/
def initialState : State :=
  { instances := [], nextPort := BASE_PORT, assignedPort := none, assignedClient := none }

/-- Environment of one `getOrCreateInstance` call: outcomes of the external
effects it awaits.  `busy` is the OS probe `isPortInUse` (lines 93-103); `now`
is `Date.now()`; `serverReady` is whether `waitForServer` resolved (modelled in
full by `waitForServer` below) and `connectOk` whether `createMcpClient`
succeeded; `newClient` is the handle of the freshly connected client;
`sessionId` is the process-wide session identifier (line 40); `closeErr` is
whether `client.close()` inside `killInstance` throws. -/
structure Env where
  busy : Nat → Bool
  now : Nat
  serverReady : Bool
  connectOk : Bool
  newClient : Nat
  sessionId : Nat
  closeErr : Bool

/-- `killInstance(port)` (lines 193-203): if the port is tracked, close the
client (a failure of `close` is swallowed by the empty `catch`, so `closeErr`
has no influence on the result), kill the process and delete the map entry;
otherwise do nothing.  The session assignment is not touched. -/
def killInstance (closeErr : Bool) (port : Nat) (s : State) : State :=
  match lookupInst port s.instances with
  | some _ => { s with instances := removePort port s.instances }
  | none => s

/-- The eviction scan of `getOrCreateInstance` (lines 120-127): a fold over the
map in iteration (= insertion) order with `oldestTime` starting at `Infinity`
and a strict `<` comparison.  The accumulator `some (port, time)` stands for
`oldestPort/oldestTime`; `none` stands for the initial `null/Infinity`, which
every finite `lastUsed` beats. -/
def findOldestAux : Option (Nat × Nat) → Pool → Option (Nat × Nat)
  | best, [] => best
  | none, (p, i) :: rest => findOldestAux (some (p, i.lastUsed)) rest
  | some (bp, bt), (p, i) :: rest =>
      if i.lastUsed < bt then findOldestAux (some (p, i.lastUsed)) rest
      else findOldestAux (some (bp, bt)) rest

/-- The port selected by the eviction scan (lines 119-127). -/
def findOldest (l : Pool) : Option Nat :=
  (findOldestAux none l).map (fun r => r.1)

/-- Capacity check and LRU eviction (lines 118-131).  The JS guard
`if (oldestPort)` is a truthiness test: `null` and port `0` are falsy, every
other port number is truthy. -/
def evictIfFull (closeErr : Bool) (s : State) : State :=
  if MAX_INSTANCES ≤ s.instances.length then
    match findOldest s.instances with
    | some p => if p = 0 then s else killInstance closeErr p s
    | none => s
  else s

/-- The wrap applied after a rejected candidate (line 141):
`if (port > BASE_PORT + 100) port = BASE_PORT`. -/
def wrapPort (p : Nat) : Nat :=
  if BASE_PORT + 100 < p then BASE_PORT else p

/-- The port scan (lines 134-146): up to 100 candidates starting at the cursor;
a candidate is accepted when it is not tracked in `instances` and the OS probe
reports it free; after a rejected candidate the next one is wrapped by
`wrapPort`.  Note that the starting candidate itself is never wrapped. -/
def findPortGo (l : Pool) (busy : Nat → Bool) : Nat → Nat → Option Nat
  | 0, _ => none
  | Nat.succ fuel, port =>
      if !hasPort l port && !busy port then some port
      else findPortGo l busy fuel (wrapPort (port + 1))

/-- Lines 134-146: the whole scan, `none` modelling the
`No available ports in range 9000-9100` throw of line 145. -/
def findAvailablePort (l : Pool) (busy : Nat → Bool) (start : Nat) : Option Nat :=
  findPortGo l busy 100 start

/-- Failure taxonomy of the spawn path: the port-exhaustion throw (line 145),
the `waitForServer` rejection (line 66) and a `createMcpClient` failure
(line 86). -/
inductive PoolError where
  | portExhausted
  | startupTimeout
  | connectionFailure
  deriving DecidableEq, Repr

/-- The spawn path of `getOrCreateInstance` (lines 118-188): evict if at
capacity, scan for a port, advance the cursor to `port + 1` (line 147), spawn,
await readiness, connect, and only then register the new worker and assign it
to the session.  Failures propagate as thrown errors; only the cursor has been
advanced at that point. -/
def spawnAtPool (env : Env) (s1 : State) : Except PoolError (Nat × Nat) × State :=
  match findAvailablePort s1.instances env.busy s1.nextPort with
  | none => (Except.error PoolError.portExhausted, s1)
  | some port =>
    if !env.serverReady then
      (Except.error PoolError.startupTimeout, { s1 with nextPort := port + 1 })
    else if !env.connectOk then
      (Except.error PoolError.connectionFailure, { s1 with nextPort := port + 1 })
    else
      (Except.ok (port, env.newClient),
       { s1 with
           nextPort := port + 1,
           instances := s1.instances ++
             [(port, { client := env.newClient, lastUsed := env.now, sessionId := env.sessionId })],
           assignedPort := some port,
           assignedClient := some env.newClient })

/-- The whole spawn path (lines 118-188): eviction first, then the
allocate/spawn/await/connect/register sequence above. -/
def spawnFlow (env : Env) (s : State) : Except PoolError (Nat × Nat) × State :=
  spawnAtPool env (evictIfFull env.closeErr s)

/-- Step 1 of `getOrCreateInstance` (lines 110-116): the session's cached
assignment is live when `assignedClient` and `assignedPort` are both set (and
the port, a JS number, is truthy, i.e. nonzero) and the port is still present
in `instances`. -/
def liveAssigned (s : State) : Option (Nat × Nat × Instance) :=
  match s.assignedClient, s.assignedPort with
  | some c, some p =>
      if p = 0 then none
      else (lookupInst p s.instances).map (fun i => (p, c, i))
  | _, _ => none

/-- `getOrCreateInstance` (lines 108-188): return the live assigned worker
after refreshing its `lastUsed`, or take the spawn path. -/
def getOrCreateInstance (env : Env) (s : State) : Except PoolError (Nat × Nat) × State :=
  match liveAssigned s with
  | some (p, c, _) =>
      (Except.ok (p, c), { s with instances := setLastUsed p env.now s.instances })
  | none => spawnFlow env s

/-- The idle test of the cleanup timer (line 272): `now - lastUsed >
INSTANCE_TIMEOUT_MS` (JS number subtraction of a later timestamp is negative
and fails the `>`, like truncated `Nat` subtraction). -/
def timedOut (now : Nat) (i : Instance) : Bool :=
  decide (INSTANCE_TIMEOUT_MS < now - i.lastUsed)

/-- One tick of the cleanup timer (lines 269-277): iterate the map in insertion
order and kill every entry idle for more than `INSTANCE_TIMEOUT_MS`.  (The
unawaited `killInstance` promises all settle before the next tick; the net
effect on the state is the sequence of kills.) -/
def cleanupTick (closeErr : Bool) (now : Nat) (s : State) : State :=
  s.instances.foldl
    (fun acc e => if timedOut now e.2 then killInstance closeErr e.1 acc else acc) s

/-- One content item of an MCP tool result; the pool logic never inspects
items beyond wrapping them, so a text item suffices. -/
inductive ContentItem where
  | text (s : String)
  deriving DecidableEq, Repr

/-- The raw object returned by `client.callTool` (line 220): a `content` field
that may be absent (JS falsiness of a missing field) and an `isError` flag
(absent modelled as `false`). -/
structure RemoteResult where
  content : Option (List ContentItem)
  isError : Bool
  deriving DecidableEq, Repr

/-- The dispatcher's result shape `{ content: [...], isError?: boolean }`. -/
structure ToolResult where
  content : List ContentItem
  isError : Bool
  deriving DecidableEq, Repr

/-- Model of `JSON.stringify(result)` in the fallback wrap (line 232); its
exact text is irrelevant to the pool logic. -/
def stringifyRemote (r : RemoteResult) : String :=
  "result(isError=" ++ toString r.isError ++ ")"

/-- Environment of one `proxyToolCall`: the `getOrCreateInstance` environment
plus the outcome of the forwarded `client.callTool` — `Except.error msg` for a
channel error / thrown exception with message `msg`, `Except.ok r` for a
returned result object. -/
structure ProxyEnv where
  env : Env
  callResult : Except String RemoteResult

/-- `proxyToolCall` (lines 208-241): obtain the session's worker (a failure
there propagates, it happens before the `try`), refresh `lastUsed` (lines
213-216, with the JS truthiness test on `assignedPort`), forward the call, and
normalize: a result with a `content` field is returned unchanged, a result
without one is wrapped as a success, and a thrown error becomes
`{ content: [text], isError: true }`.  `touchAssigned` is the `lastUsed`
refresh of lines 213-216, with the JS truthiness test on `assignedPort`. -/
def touchAssigned (now : Nat) (s1 : State) : State :=
  match s1.assignedPort with
  | some ap =>
      if ap != 0 && hasPort s1.instances ap then
        { s1 with instances := setLastUsed ap now s1.instances }
      else s1
  | none => s1

def proxyToolCall (penv : ProxyEnv) (s : State) : Except PoolError ToolResult × State :=
  match getOrCreateInstance penv.env s with
  | (Except.error e, s1) => (Except.error e, s1)
  | (Except.ok _pc, s1) =>
    let s2 := touchAssigned penv.env.now s1
    match penv.callResult with
    | Except.error msg =>
        (Except.ok { content := [ContentItem.text ("Error: " ++ msg)], isError := true }, s2)
    | Except.ok r =>
        match r.content with
        | some c => (Except.ok { content := c, isError := r.isError }, s2)
        | none =>
            (Except.ok { content := [ContentItem.text (stringifyRemote r)], isError := false }, s2)

/-- `waitForServer` (lines 47-78), over a probe oracle: `respond k` says
whether the k-th health probe gets any response at all (of any kind — the
handler resolves on any `res`), and `errDelay k` how many milliseconds the
k-th probe takes to error when it gets none.  `t` is the time in milliseconds
since the promise was created at which the k-th probe fires: the first probe
fires after the fixed 3000ms bootstrap delay (line 76), and each failed probe
is followed by a fixed 1000ms pause (line 68).  On a probe error the code
rejects when more than `timeout` ms have elapsed (line 65).  The `ok` result
records the index and firing time of the resolving probe. -/
def waitGo (respond : Nat → Bool) (errDelay : Nat → Nat) (timeout : Nat) (k t : Nat) :
    Except String (Nat × Nat) :=
  if respond k then Except.ok (k, t)
  else if h : timeout < t + errDelay k then Except.error "Timeout waiting for server"
  else waitGo respond errDelay timeout (k + 1) (t + errDelay k + 1000)
termination_by timeout + 1000 - t
decreasing_by simp_wf; omega

/-- `waitForServer(port, timeout)` (lines 47-78) with the call-site timeout. -/
def waitForServer (respond : Nat → Bool) (errDelay : Nat → Nat) (timeout : Nat) :
    Except String (Nat × Nat) :=
  waitGo respond errDelay timeout 0 3000

/-- Firing time of the k-th probe: 3000ms bootstrap delay, then each earlier
failed probe contributes its error latency plus the fixed 1000ms pause. -/
def pollTime (errDelay : Nat → Nat) : Nat → Nat
  | 0 => 3000
  | Nat.succ k => pollTime errDelay k + errDelay k + 1000

/-- The ports of the entries a cleanup tick kills: those idle past the
threshold. -/
def killedPorts (now : Nat) (l : Pool) : List Nat :=
  (l.filter (fun e => timedOut now e.2)).map (fun e => e.1)

/-- Modelled from the spec's words, for the tie-break refinement claim: the
minimum `lastUsed` across the pool. -/
def minLastUsed : Pool → Option Nat
  | [] => none
  | e :: es =>
    match minLastUsed es with
    | none => some e.2.lastUsed
    | some m => some (min e.2.lastUsed m)

/-- Modelled from the spec's words: the port of the first entry, in insertion
order, attaining the minimum `lastUsed`. -/
def firstMinPort (l : Pool) : Option Nat :=
  match minLastUsed l with
  | none => none
  | some m => (l.find? (fun e => e.2.lastUsed == m)).map (fun e => e.1)

/-- A fully permissive call environment for concrete evaluations: every port
free at the OS, readiness and connection succeed. -/
def envFreeC : Env :=
  { busy := fun _ => false, now := 0, serverReady := true, connectOk := true,
    newClient := 7, sessionId := 5, closeErr := false }

/-- An environment whose readiness wait times out. -/
def envNoReadyC : Env :=
  { busy := fun _ => false, now := 0, serverReady := false, connectOk := true,
    newClient := 7, sessionId := 5, closeErr := false }

/-- One `getOrCreateInstance` call followed by `killInstance` of the worker it
returned: the kill frees the pool entry but, as in the source, leaves the
session assignment stale, so the next call takes the spawn path again. -/
def driveStep (s : State) : State :=
  match getOrCreateInstance envFreeC s with
  | (Except.ok pc, s') => killInstance false pc.1 s'
  | (Except.error _, s') => s'

/-- `drive n`: `n` rounds of `driveStep` from the initial state; each round
allocates the port at the cursor and advances the cursor past it. -/
def drive : Nat → State
  | 0 => initialState
  | Nat.succ n => driveStep (drive n)

/-- A concrete pool of ten workers, the least recently used at port 9003. -/
def poolTenC : Pool :=
  [(9000, ⟨1, 50, 5⟩), (9001, ⟨2, 60, 5⟩), (9002, ⟨3, 70, 5⟩), (9003, ⟨4, 10, 5⟩),
   (9004, ⟨11, 80, 5⟩), (9005, ⟨12, 90, 5⟩), (9006, ⟨13, 20, 5⟩), (9007, ⟨14, 95, 5⟩),
   (9008, ⟨15, 97, 5⟩), (9009, ⟨16, 99, 5⟩)]

/-- A concrete state at capacity with no live assignment. -/
def stateTenC : State :=
  { instances := poolTenC, nextPort := 9010, assignedPort := none, assignedClient := none }

/-- A concrete state with a live assigned worker at port 9000. -/
def stateAssignedC : State :=
  { instances := [(9000, ⟨7, 0, 5⟩)], nextPort := 9001,
    assignedPort := some 9000, assignedClient := some 7 }

/-- A concrete two-worker state: port 9000 idle since time 0, port 9001 idle
since time 120000; at `now = 1860000` the first has been idle 31 minutes and
the second 29 minutes. -/
def stateIdleC : State :=
  { instances := [(9000, ⟨1, 0, 5⟩), (9001, ⟨2, 120000, 5⟩)], nextPort := 9002,
    assignedPort := none, assignedClient := none }

/-- A proxy environment whose forwarded call throws with message `boom`. -/
def penvThrowC : ProxyEnv :=
  { env := envFreeC, callResult := Except.error "boom" }

/-! Basic lemmas about the pool primitives. -/

theorem lookupInst_eq_none {p : Nat} {l : Pool} :
    lookupInst p l = none ↔ ∀ e ∈ l, (e.1 == p) = false := by
  simp [lookupInst, List.find?_eq_none]

theorem lookupInst_isSome_of_mem {p : Nat} {i : Instance} {l : Pool}
    (h : (p, i) ∈ l) : (lookupInst p l).isSome = true := by
  induction l with
  | nil => cases h
  | cons e rest ih =>
      rcases List.mem_cons.1 h with he | ht
      · subst he; simp [lookupInst, List.find?]
      · cases hb : (e.1 == p) with
        | true => simp [lookupInst, List.find?, hb]
        | false =>
            have := ih ht
            simpa [lookupInst, List.find?, hb] using this

theorem removePort_eq_self_of_none {p : Nat} {l : Pool}
    (h : lookupInst p l = none) : removePort p l = l := by
  have hall := lookupInst_eq_none.1 h
  apply List.filter_eq_self.2
  intro e he
  have := hall e he
  simp [bne] at *
  simpa using this

theorem lookupInst_removePort_self (p : Nat) (l : Pool) :
    lookupInst p (removePort p l) = none := by
  apply lookupInst_eq_none.2
  intro e he
  have := (List.mem_filter.1 he).2
  simpa [bne] using this

theorem killInstance_instances (b : Bool) (p : Nat) (s : State) :
    (killInstance b p s).instances = removePort p s.instances := by
  unfold killInstance
  cases h : lookupInst p s.instances with
  | some i => rfl
  | none => simp [removePort_eq_self_of_none h]

theorem killInstance_nextPort (b : Bool) (p : Nat) (s : State) :
    (killInstance b p s).nextPort = s.nextPort := by
  unfold killInstance; cases lookupInst p s.instances <;> rfl

theorem killInstance_assignedPort (b : Bool) (p : Nat) (s : State) :
    (killInstance b p s).assignedPort = s.assignedPort := by
  unfold killInstance; cases lookupInst p s.instances <;> rfl

theorem killInstance_assignedClient (b : Bool) (p : Nat) (s : State) :
    (killInstance b p s).assignedClient = s.assignedClient := by
  unfold killInstance; cases lookupInst p s.instances <;> rfl

theorem lookupInst_cons_pos {p : Nat} {e : Nat × Instance} {l : Pool}
    (h : (e.1 == p) = true) : lookupInst p (e :: l) = some e.2 := by
  simp [lookupInst, List.find?, h]

theorem lookupInst_cons_neg {p : Nat} {e : Nat × Instance} {l : Pool}
    (h : (e.1 == p) = false) : lookupInst p (e :: l) = lookupInst p l := by
  simp [lookupInst, List.find?, h]

theorem setLastUsed_cons (p n : Nat) (e : Nat × Instance) (l : Pool) :
    setLastUsed p n (e :: l) =
      (if (e.1 == p) = true then (e.1, { e.2 with lastUsed := n }) else e) :: setLastUsed p n l :=
  rfl

theorem setLastUsed_map_fst (p n : Nat) (l : Pool) :
    (setLastUsed p n l).map (fun e => e.1) = l.map (fun e => e.1) := by
  induction l with
  | nil => rfl
  | cons e rest ih =>
      rw [setLastUsed_cons, List.map_cons, List.map_cons, ih]
      congr 1
      by_cases h : (e.1 == p) = true <;> simp [h]

theorem lookupInst_setLastUsed_self {p : Nat} {i : Instance} {l : Pool} (n : Nat)
    (h : lookupInst p l = some i) :
    lookupInst p (setLastUsed p n l) = some { i with lastUsed := n } := by
  induction l with
  | nil => simp [lookupInst] at h
  | cons e rest ih =>
      cases hb : (e.1 == p) with
      | true =>
          rw [lookupInst_cons_pos hb] at h
          injection h with h
          rw [setLastUsed_cons, if_pos hb]
          simp [lookupInst, List.find?, hb, h]
      | false =>
          rw [lookupInst_cons_neg hb] at h
          rw [setLastUsed_cons, if_neg (by simp [hb])]
          rw [lookupInst_cons_neg hb]
          exact ih h

theorem hasPort_eq_any_map (l : Pool) (p : Nat) :
    hasPort l p = (l.map (fun e => e.1)).any (fun x => x == p) := by
  induction l with
  | nil => rfl
  | cons e rest ih =>
      simp only [hasPort, List.map_cons, List.any_cons] at ih ⊢
      rw [ih]

theorem hasPort_congr_fst {l l' : Pool} (p : Nat)
    (h : l.map (fun e => e.1) = l'.map (fun e => e.1)) : hasPort l p = hasPort l' p := by
  rw [hasPort_eq_any_map, hasPort_eq_any_map, h]

theorem hasPort_of_mem {p : Nat} {i : Instance} {l : Pool} (h : (p, i) ∈ l) :
    hasPort l p = true := by
  unfold hasPort
  rw [List.any_eq_true]
  exact ⟨(p, i), h, by simp⟩

theorem hasPort_eq_isSome (l : Pool) (p : Nat) :
    hasPort l p = (lookupInst p l).isSome := by
  induction l with
  | nil => rfl
  | cons e rest ih =>
      cases hb : (e.1 == p) with
      | true => simp [hasPort, lookupInst, List.find?, hb]
      | false => simpa [hasPort, lookupInst, List.find?, hb] using ih

theorem removePort_length_of_nodup {p : Nat} {i : Instance} {l : Pool}
    (hN : (l.map (fun e => e.1)).Nodup) (h : (p, i) ∈ l) :
    (removePort p l).length + 1 = l.length := by
  induction l with
  | nil => cases h
  | cons e rest ih =>
      have hN' : (rest.map (fun e => e.1)).Nodup := (List.nodup_cons.1 hN).2
      have hnotin : e.1 ∉ rest.map (fun e => e.1) := (List.nodup_cons.1 hN).1
      rcases List.mem_cons.1 h with he | ht
      · subst he
        have hkeep : removePort p rest = rest := by
          apply List.filter_eq_self.2
          intro x hx
          have hxp : x.1 ≠ p := by
            intro hxp
            exact hnotin (by simpa [hxp] using List.mem_map_of_mem (fun e => e.1) hx)
          simpa [bne_iff_ne] using hxp
        have h1 : removePort p ((p, i) :: rest) = removePort p rest := by
          simp [removePort, List.filter_cons]
        rw [h1, hkeep]
        simp
      · have hne : e.1 ≠ p := by
          intro hxp
          exact hnotin (by simpa [hxp] using List.mem_map_of_mem (fun e => e.1) ht)
        have h1 : removePort p (e :: rest) = e :: removePort p rest := by
          simp [removePort, List.filter_cons, bne_iff_ne, hne]
        have h2 := ih hN' ht
        rw [h1]
        simp only [List.length_cons]
        omega

/-! Characterization of the eviction scan. -/

theorem minLastUsed_le {l : Pool} {m : Nat} (h : minLastUsed l = some m) :
    ∀ e ∈ l, m ≤ e.2.lastUsed := by
  induction l generalizing m with
  | nil => simp [minLastUsed] at h
  | cons e rest ih =>
      intro x hx
      rcases List.mem_cons.1 hx with hx | hx
      · subst hx
        cases hes : minLastUsed rest with
        | none => simp [minLastUsed, hes] at h; omega
        | some m' =>
            simp [minLastUsed, hes] at h
            subst h
            exact min_le_left _ _
      · cases hes : minLastUsed rest with
        | none =>
            cases rest with
            | nil => cases hx
            | cons y ys =>
                exfalso
                simp [minLastUsed] at hes
                cases hmm : minLastUsed ys <;> simp [hmm] at hes
        | some m' =>
            have hm' := ih hes x hx
            simp [minLastUsed, hes] at h
            subst h
            exact le_trans (min_le_right _ _) hm'

/-- Full behaviour of the strict-`<` accumulator scan: with current best
`(bp, bt)`, scanning `l` keeps the best when nothing in `l` beats `bt`, and
otherwise ends at the first entry of `l` attaining the minimum of `l`. -/
theorem findOldestAux_spec (l : Pool) : ∀ bp bt : Nat,
    (minLastUsed l = none → findOldestAux (some (bp, bt)) l = some (bp, bt)) ∧
    (∀ m, minLastUsed l = some m →
      (bt ≤ m → findOldestAux (some (bp, bt)) l = some (bp, bt)) ∧
      (m < bt → ∃ e, l.find? (fun x => x.2.lastUsed == m) = some e ∧
        findOldestAux (some (bp, bt)) l = some (e.1, e.2.lastUsed))) := by
  induction l with
  | nil =>
      intro bp bt
      exact ⟨fun _ => rfl, fun m hm => by simp [minLastUsed] at hm⟩
  | cons e rest ih =>
      intro bp bt
      constructor
      · intro hnone
        exfalso
        cases hes : minLastUsed rest <;> simp [minLastUsed, hes] at hnone
      · intro m hm
        cases hes : minLastUsed rest with
        | none =>
            simp [minLastUsed, hes] at hm
            subst hm
            constructor
            · intro hle
              have hnlt : ¬ e.2.lastUsed < bt := by omega
              simp only [findOldestAux, if_neg hnlt]
              exact (ih bp bt).1 hes
            · intro hlt
              refine ⟨e, ?_, ?_⟩
              · simp [List.find?]
              · simp only [findOldestAux, if_pos hlt]
                exact (ih e.1 e.2.lastUsed).1 hes
        | some m' =>
            simp [minLastUsed, hes] at hm
            subst hm
            rcases Nat.le_total e.2.lastUsed m' with hcmp | hcmp
            · -- head attains the minimum: min = e.2.lastUsed
              rw [min_eq_left hcmp]
              constructor
              · intro hle
                have hnlt : ¬ e.2.lastUsed < bt := by omega
                simp only [findOldestAux, if_neg hnlt]
                exact ((ih bp bt).2 m' hes).1 (le_trans hle hcmp)
              · intro hlt
                refine ⟨e, ?_, ?_⟩
                · simp [List.find?]
                · simp only [findOldestAux, if_pos hlt]
                  exact ((ih e.1 e.2.lastUsed).2 m' hes).1 hcmp
            · -- the minimum occurs in the tail
              rw [min_eq_right hcmp]
              by_cases hEq : e.2.lastUsed = m'
              · -- head ties the tail minimum: head still wins among ties
                subst hEq
                constructor
                · intro hle
                  have hnlt : ¬ e.2.lastUsed < bt := by omega
                  simp only [findOldestAux, if_neg hnlt]
                  exact ((ih bp bt).2 _ hes).1 hle
                · intro hlt
                  refine ⟨e, ?_, ?_⟩
                  · simp [List.find?]
                  · simp only [findOldestAux, if_pos hlt]
                    exact ((ih e.1 e.2.lastUsed).2 _ hes).1 (le_refl _)
              · have hm'lt : m' < e.2.lastUsed := lt_of_le_of_ne hcmp (fun h => hEq h.symm)
                have hhead : ((fun x => x.2.lastUsed == m') e) = false := by
                  simp; omega
                constructor
                · intro hle
                  have hnlt : ¬ e.2.lastUsed < bt := by omega
                  simp only [findOldestAux, if_neg hnlt]
                  exact ((ih bp bt).2 m' hes).1 hle
                · intro hlt
                  by_cases hlt2 : e.2.lastUsed < bt
                  · obtain ⟨e', hfind, heq⟩ := ((ih e.1 e.2.lastUsed).2 m' hes).2 hm'lt
                    refine ⟨e', ?_, ?_⟩
                    · rw [List.find?_cons_of_neg]
                      · exact hfind
                      · simp [hhead]
                    · simp only [findOldestAux, if_pos hlt2]
                      exact heq
                  · obtain ⟨e', hfind, heq⟩ := ((ih bp bt).2 m' hes).2 hlt
                    refine ⟨e', ?_, ?_⟩
                    · rw [List.find?_cons_of_neg]
                      · exact hfind
                      · simp [hhead]
                    · simp only [findOldestAux, if_neg hlt2]
                      exact heq

/-- The source's eviction scan agrees with the spec-side selection: the first
entry in insertion order attaining the minimal `lastUsed`. -/
theorem findOldest_eq_firstMinPort (l : Pool) : findOldest l = firstMinPort l := by
  cases l with
  | nil => rfl
  | cons e rest =>
      show (findOldestAux (some (e.1, e.2.lastUsed)) rest).map (fun r => r.1) = _
      cases hes : minLastUsed rest with
      | none =>
          rw [(findOldestAux_spec rest e.1 e.2.lastUsed).1 hes]
          simp [firstMinPort, minLastUsed, hes, List.find?]
      | some m' =>
          rcases Nat.le_total e.2.lastUsed m' with hcmp | hcmp
          · rw [((findOldestAux_spec rest e.1 e.2.lastUsed).2 m' hes).1 hcmp]
            simp [firstMinPort, minLastUsed, hes, min_eq_left hcmp, List.find?]
          · by_cases hEq : e.2.lastUsed = m'
            · subst hEq
              rw [((findOldestAux_spec rest e.1 e.2.lastUsed).2 _ hes).1 (le_refl _)]
              simp [firstMinPort, minLastUsed, hes, min_eq_right hcmp, List.find?]
            · have hm'lt : m' < e.2.lastUsed := lt_of_le_of_ne hcmp (fun h => hEq h.symm)
              obtain ⟨e', hfind, heq⟩ :=
                ((findOldestAux_spec rest e.1 e.2.lastUsed).2 m' hes).2 hm'lt
              rw [heq]
              have hhead : ((fun x => x.2.lastUsed == m') e) = false := by
                simp; omega
              have hfe' := List.find?_some hfind
              have : e'.2.lastUsed = m' := by simpa using hfe'
              simp only [firstMinPort, minLastUsed, hes, min_eq_right hcmp]
              rw [List.find?_cons_of_neg]
              · rw [hfind]
                simp
              · simp [hhead]

/-- The scan of a nonempty pool returns a port. -/
theorem findOldestAux_isSome (l : Pool) : ∀ b : Nat × Nat,
    ∃ r, findOldestAux (some b) l = some r := by
  induction l with
  | nil => exact fun b => ⟨b, rfl⟩
  | cons e rest ih =>
      intro b
      rcases b with ⟨bp, bt⟩
      by_cases h : e.2.lastUsed < bt
      · simpa only [findOldestAux, if_pos h] using ih (e.1, e.2.lastUsed)
      · simpa only [findOldestAux, if_neg h] using ih (bp, bt)

theorem findOldest_isSome_of_ne_nil {l : Pool} (h : l ≠ []) :
    ∃ p, findOldest l = some p := by
  cases l with
  | nil => exact absurd rfl h
  | cons e rest =>
      obtain ⟨r, hr⟩ := findOldestAux_isSome rest (e.1, e.2.lastUsed)
      exact ⟨r.1, by simp [findOldest, findOldestAux, hr]⟩

/-- The port the scan returns belongs to the pool, with an entry whose
`lastUsed` is minimal over the whole pool. -/
theorem findOldest_spec {l : Pool} {p : Nat} (h : findOldest l = some p) :
    ∃ i, (p, i) ∈ l ∧ ∀ e ∈ l, i.lastUsed ≤ e.2.lastUsed := by
  rw [findOldest_eq_firstMinPort] at h
  unfold firstMinPort at h
  cases hm : minLastUsed l with
  | none =>
      rw [hm] at h
      have h' : (none : Option Nat) = some p := h
      cases h'
  | some m =>
      rw [hm] at h
      have h' : (l.find? (fun e => e.2.lastUsed == m)).map (fun e => e.1) = some p := h
      cases hf : l.find? (fun e => e.2.lastUsed == m) with
      | none => rw [hf] at h'; cases h'
      | some e =>
          rw [hf] at h'
          have hp : e.1 = p := by simpa using h'
          have hmem : e ∈ l := List.mem_of_find?_eq_some hf
          have hval := List.find?_some hf
          have hval' : e.2.lastUsed = m := by simpa using hval
          refine ⟨e.2, ?_, ?_⟩
          · rw [← hp]; simpa using hmem
          · intro x hx
            rw [hval']
            exact minLastUsed_le hm x hx

/-! Lemmas about the spawn path. -/

theorem evictIfFull_nextPort (b : Bool) (s : State) :
    (evictIfFull b s).nextPort = s.nextPort := by
  unfold evictIfFull
  split
  · cases findOldest s.instances with
    | none => rfl
    | some p =>
        by_cases hp : p = 0
        · simp [hp]
        · simp [hp, killInstance_nextPort]
  · rfl

theorem evictIfFull_assignedPort (b : Bool) (s : State) :
    (evictIfFull b s).assignedPort = s.assignedPort := by
  unfold evictIfFull
  split
  · cases findOldest s.instances with
    | none => rfl
    | some p =>
        by_cases hp : p = 0
        · simp [hp]
        · simp [hp, killInstance_assignedPort]
  · rfl

theorem evictIfFull_assignedClient (b : Bool) (s : State) :
    (evictIfFull b s).assignedClient = s.assignedClient := by
  unfold evictIfFull
  split
  · cases findOldest s.instances with
    | none => rfl
    | some p =>
        by_cases hp : p = 0
        · simp [hp]
        · simp [hp, killInstance_assignedClient]
  · rfl

/-- A successful spawn from pool state `t`: the scan found the returned port,
readiness and connection succeeded, and the new worker was appended and
assigned. -/
theorem spawnAtPool_ok {env : Env} {t : State} {q c : Nat}
    (h : (spawnAtPool env t).1 = Except.ok (q, c)) :
    findAvailablePort t.instances env.busy t.nextPort = some q ∧
    c = env.newClient ∧ env.serverReady = true ∧ env.connectOk = true ∧
    (spawnAtPool env t).2.instances = t.instances ++
      [(q, { client := env.newClient, lastUsed := env.now, sessionId := env.sessionId })] ∧
    (spawnAtPool env t).2.nextPort = q + 1 ∧
    (spawnAtPool env t).2.assignedPort = some q ∧
    (spawnAtPool env t).2.assignedClient = some env.newClient := by
  unfold spawnAtPool at h ⊢
  cases hfa : findAvailablePort t.instances env.busy t.nextPort with
  | none => rw [hfa] at h; simp at h
  | some port =>
      rw [hfa] at h
      cases hr : env.serverReady with
      | false => rw [hr] at h; simp at h
      | true =>
          rw [hr] at h
          cases hc : env.connectOk with
          | false => rw [hc] at h; simp at h
          | true =>
              rw [hc] at h
              simp at h
              obtain ⟨hq, hcc⟩ := h
              subst hq
              simp [hcc]

/-- A failed spawn from pool state `t`: the error propagates, the pool and the
session assignment are exactly `t`'s. -/
theorem spawnAtPool_err {env : Env} {t : State} {e : PoolError}
    (h : (spawnAtPool env t).1 = Except.error e) :
    (spawnAtPool env t).2.instances = t.instances ∧
    (spawnAtPool env t).2.assignedPort = t.assignedPort ∧
    (spawnAtPool env t).2.assignedClient = t.assignedClient := by
  unfold spawnAtPool at h ⊢
  cases hfa : findAvailablePort t.instances env.busy t.nextPort with
  | none => exact ⟨rfl, rfl, rfl⟩
  | some port =>
      cases hr : env.serverReady with
      | false => exact ⟨rfl, rfl, rfl⟩
      | true =>
          cases hc : env.connectOk with
          | false => exact ⟨rfl, rfl, rfl⟩
          | true => rw [hfa, hr, hc] at h; simp at h

/-- A failed spawn path: the pool is exactly the post-eviction pool and the
session assignment is untouched. -/
theorem spawnFlow_err {env : Env} {s : State} {e : PoolError}
    (h : (spawnFlow env s).1 = Except.error e) :
    (spawnFlow env s).2.instances = (evictIfFull env.closeErr s).instances ∧
    (spawnFlow env s).2.assignedPort = s.assignedPort ∧
    (spawnFlow env s).2.assignedClient = s.assignedClient := by
  have := spawnAtPool_err (t := evictIfFull env.closeErr s) h
  refine ⟨this.1, ?_, ?_⟩
  · rw [show (spawnFlow env s).2 = (spawnAtPool env (evictIfFull env.closeErr s)).2 from rfl,
      this.2.1, evictIfFull_assignedPort]
  · rw [show (spawnFlow env s).2 = (spawnAtPool env (evictIfFull env.closeErr s)).2 from rfl,
      this.2.2, evictIfFull_assignedClient]

theorem liveAssigned_eq_some {s : State} {p c : Nat} {i : Instance} :
    liveAssigned s = some (p, c, i) ↔
      s.assignedClient = some c ∧ s.assignedPort = some p ∧ p ≠ 0 ∧
      lookupInst p s.instances = some i := by
  unfold liveAssigned
  cases hc : s.assignedClient with
  | none => simp
  | some c' =>
      cases hp : s.assignedPort with
      | none => simp
      | some p' =>
          dsimp only
          by_cases hz : p' = 0
          · subst hz
            rw [if_pos rfl]
            constructor
            · intro h; cases h
            · rintro ⟨_, hpp, hnz, _⟩
              injection hpp with hpp
              exact absurd hpp.symm hnz
          · rw [if_neg hz]
            constructor
            · intro h
              rcases Option.map_eq_some'.1 h with ⟨i', hl, hii⟩
              simp only [Prod.mk.injEq] at hii
              obtain ⟨hpp, hcc, hiy⟩ := hii
              subst hpp; subst hcc; subst hiy
              exact ⟨rfl, rfl, hz, hl⟩
            · rintro ⟨hcc, hpp, _, hl⟩
              injection hcc with hcc
              injection hpp with hpp
              subst hcc; subst hpp
              rw [hl]
              rfl

theorem getOrCreate_of_liveAssigned_none {env : Env} {s : State}
    (h : liveAssigned s = none) : getOrCreateInstance env s = spawnFlow env s := by
  unfold getOrCreateInstance
  rw [h]

theorem getOrCreate_of_liveAssigned_some {env : Env} {s : State} {p c : Nat} {i : Instance}
    (h : liveAssigned s = some (p, c, i)) :
    getOrCreateInstance env s =
      (Except.ok (p, c), { s with instances := setLastUsed p env.now s.instances }) := by
  unfold getOrCreateInstance
  rw [h]

/-! The port scan: distinctness and range. -/

theorem findPortGo_spec {l : Pool} {busy : Nat → Bool} :
    ∀ (fuel start p : Nat), BASE_PORT ≤ start →
      findPortGo l busy fuel start = some p →
      hasPort l p = false ∧ busy p = false ∧
        (p = start ∨ (BASE_PORT ≤ p ∧ p ≤ BASE_PORT + 100)) := by
  intro fuel
  induction fuel with
  | zero => intro start p _ h; cases h
  | succ fuel ih =>
      intro start p hstart h
      unfold findPortGo at h
      by_cases hok : (!hasPort l start && !busy start) = true
      · rw [if_pos hok] at h
        injection h with h
        subst h
        simp only [Bool.and_eq_true, Bool.not_eq_true'] at hok
        exact ⟨hok.1, hok.2, Or.inl rfl⟩
      · rw [if_neg hok] at h
        have hwrap : BASE_PORT ≤ wrapPort (start + 1) ∧ wrapPort (start + 1) ≤ BASE_PORT + 100 := by
          unfold wrapPort BASE_PORT at *
          split <;> omega
        have := ih (wrapPort (start + 1)) p hwrap.1 h
        refine ⟨this.1, this.2.1, ?_⟩
        rcases this.2.2 with heq | hrange
        · subst heq
          exact Or.inr hwrap
        · exact Or.inr hrange

/-! Lemmas about the readiness wait. -/

theorem waitGo_all_fail {respond : Nat → Bool} {errDelay : Nat → Nat} {timeout : Nat}
    (hall : ∀ j, respond j = false) :
    ∀ n k t, timeout + 1000 - t ≤ n →
      waitGo respond errDelay timeout k t = Except.error "Timeout waiting for server" := by
  intro n
  induction n with
  | zero =>
      intro k t hm
      unfold waitGo
      rw [hall k]
      have hlt : timeout < t + errDelay k := by omega
      simp [hlt]
  | succ n ih =>
      intro k t hm
      unfold waitGo
      rw [hall k]
      by_cases hlt : timeout < t + errDelay k
      · simp [hlt]
      · simp only [Bool.false_eq_true, if_false, dif_neg hlt]
        apply ih
        omega

theorem waitGo_ok {respond : Nat → Bool} {errDelay : Nat → Nat} {timeout : Nat} :
    ∀ n k k' t', timeout + 1000 - pollTime errDelay k ≤ n →
      waitGo respond errDelay timeout k (pollTime errDelay k) = Except.ok (k', t') →
      respond k' = true ∧ k ≤ k' ∧ (∀ j, k ≤ j → j < k' → respond j = false) ∧
        t' = pollTime errDelay k' := by
  intro n
  induction n with
  | zero =>
      intro k k' t' hm h
      unfold waitGo at h
      cases hr : respond k with
      | true =>
          rw [hr] at h
          simp at h
          obtain ⟨hk, ht⟩ := h
          subst hk; subst ht
          exact ⟨hr, le_refl _,
            fun j hj1 hj2 => absurd (lt_of_le_of_lt hj1 hj2) (lt_irrefl _), rfl⟩
      | false =>
          rw [hr] at h
          have hlt : timeout < pollTime errDelay k + errDelay k := by omega
          simp [hlt] at h
  | succ n ih =>
      intro k k' t' hm h
      unfold waitGo at h
      cases hr : respond k with
      | true =>
          rw [hr] at h
          simp at h
          obtain ⟨hk, ht⟩ := h
          subst hk; subst ht
          exact ⟨hr, le_refl _,
            fun j hj1 hj2 => absurd (lt_of_le_of_lt hj1 hj2) (lt_irrefl _), rfl⟩
      | false =>
          rw [hr] at h
          simp only [Bool.false_eq_true, if_false] at h
          by_cases hlt : timeout < pollTime errDelay k + errDelay k
          · rw [dif_pos hlt] at h; cases h
          · rw [dif_neg hlt] at h
            have hpt : pollTime errDelay k + errDelay k + 1000 = pollTime errDelay (k + 1) := rfl
            rw [hpt] at h
            have hm' : timeout + 1000 - pollTime errDelay (k + 1) ≤ n := by
              rw [show pollTime errDelay (k + 1) = pollTime errDelay k + errDelay k + 1000 from rfl]
              omega
            obtain ⟨h1, h2, h3, h4⟩ := ih (k + 1) k' t' hm' h
            refine ⟨h1, le_trans (Nat.le_succ k) h2, ?_, h4⟩
            intro j hj1 hj2
            rcases Nat.eq_or_lt_of_le hj1 with heq | hlt2
            · rw [← heq]; exact hr
            · exact h3 j hlt2 hj2

/-! Lemmas about the cleanup tick. -/

theorem cleanup_fold_fields (b : Bool) (now : Nat) :
    ∀ (l : List (Nat × Instance)) (t : State),
      (List.foldl (fun acc e => if timedOut now e.2 then killInstance b e.1 acc else acc) t
          l).nextPort = t.nextPort ∧
      (List.foldl (fun acc e => if timedOut now e.2 then killInstance b e.1 acc else acc) t
          l).assignedPort = t.assignedPort ∧
      (List.foldl (fun acc e => if timedOut now e.2 then killInstance b e.1 acc else acc) t
          l).assignedClient = t.assignedClient := by
  intro l
  induction l with
  | nil => exact fun t => ⟨rfl, rfl, rfl⟩
  | cons e rest ih =>
      intro t
      simp only [List.foldl_cons]
      by_cases ht : timedOut now e.2 = true
      · rw [if_pos ht]
        obtain ⟨i1, i2, i3⟩ := ih (killInstance b e.1 t)
        exact ⟨by rw [i1, killInstance_nextPort],
          by rw [i2, killInstance_assignedPort],
          by rw [i3, killInstance_assignedClient]⟩
      · rw [if_neg ht]
        exact ih t

theorem killedPorts_cons_pos {now : Nat} {e : Nat × Instance} {l : Pool}
    (h : timedOut now e.2 = true) :
    killedPorts now (e :: l) = e.1 :: killedPorts now l := by
  simp [killedPorts, List.filter_cons, h]

theorem killedPorts_cons_neg {now : Nat} {e : Nat × Instance} {l : Pool}
    (h : timedOut now e.2 = false) :
    killedPorts now (e :: l) = killedPorts now l := by
  simp [killedPorts, List.filter_cons, h]

theorem cleanup_fold_instances (b : Bool) (now : Nat) :
    ∀ (l : List (Nat × Instance)) (t : State),
      (List.foldl (fun acc e => if timedOut now e.2 then killInstance b e.1 acc else acc) t
          l).instances =
        t.instances.filter (fun e => !(killedPorts now l).contains e.1) := by
  intro l
  induction l with
  | nil =>
      intro t
      simp [killedPorts]
  | cons e rest ih =>
      intro t
      simp only [List.foldl_cons]
      by_cases ht : timedOut now e.2 = true
      · rw [if_pos ht, ih (killInstance b e.1 t), killInstance_instances,
          killedPorts_cons_pos ht]
        unfold removePort
        rw [List.filter_filter]
        apply List.filter_congr
        intro x _
        rw [List.contains_cons]
        by_cases hxy : x.1 = e.1 <;> simp [hxy, Bool.not_or, Bool.and_comm, bne]
      · have ht2 : timedOut now e.2 = false := by simpa using ht
        rw [if_neg ht, ih t, killedPorts_cons_neg ht2]

theorem contains_killedPorts_of_nodup {now : Nat} {l : Pool}
    (hN : (l.map (fun e => e.1)).Nodup) :
    ∀ x ∈ l, (killedPorts now l).contains x.1 = timedOut now x.2 := by
  intro x hx
  cases ht : timedOut now x.2 with
  | true =>
      have hxf : x ∈ l.filter (fun e => timedOut now e.2) := by
        rw [List.mem_filter]
        exact ⟨hx, ht⟩
      have hmem : x.1 ∈ killedPorts now l := List.mem_map_of_mem (fun e => e.1) hxf
      exact List.elem_iff.2 hmem
  | false =>
      rw [Bool.eq_false_iff]
      intro hc
      have hmem : x.1 ∈ killedPorts now l := List.elem_iff.1 hc
      obtain ⟨y, hyf, hyx⟩ := List.mem_map.1 hmem
      obtain ⟨hyl, hyt⟩ := List.mem_filter.1 hyf
      have hxy : y = x := List.inj_on_of_nodup_map hN hyl hx hyx
      rw [hxy] at hyt
      rw [hyt] at ht
      cases ht

theorem stateEq_of_fields {s t : State}
    (h1 : s.instances = t.instances) (h2 : s.nextPort = t.nextPort)
    (h3 : s.assignedPort = t.assignedPort) (h4 : s.assignedClient = t.assignedClient) :
    s = t := by
  cases s
  cases t
  simp only at h1 h2 h3 h4
  subst h1; subst h2; subst h3; subst h4
  rfl

/-- With pairwise-distinct ports, one cleanup tick is exactly a filter keeping
the workers whose idle time is within the threshold; all other state fields
are untouched. -/
theorem cleanupTick_eq_filter (b : Bool) (now : Nat) (s : State)
    (hN : (s.instances.map (fun e => e.1)).Nodup) :
    cleanupTick b now s =
      { s with instances := s.instances.filter (fun e => !timedOut now e.2) } := by
  have hfields := cleanup_fold_fields b now s.instances s
  have hfe : s.instances.filter (fun e => !(killedPorts now s.instances).contains e.1) =
      s.instances.filter (fun e => !timedOut now e.2) := by
    apply List.filter_congr
    intro x hx
    rw [contains_killedPorts_of_nodup hN x hx]
  refine stateEq_of_fields ?_ ?_ ?_ ?_
  · have h1 : (cleanupTick b now s).instances =
        s.instances.filter (fun e => !(killedPorts now s.instances).contains e.1) :=
      cleanup_fold_instances b now s.instances s
    rw [h1, hfe]
  · exact hfields.1
  · exact hfields.2.1
  · exact hfields.2.2

theorem killInstance_of_none {b : Bool} {p : Nat} {s : State}
    (h : lookupInst p s.instances = none) : killInstance b p s = s := by
  unfold killInstance
  rw [h]

theorem liveAssigned_none_of_stale {s : State} {p c : Nat}
    (hp : s.assignedPort = some p) (hc : s.assignedClient = some c)
    (hl : lookupInst p s.instances = none) : liveAssigned s = none := by
  unfold liveAssigned
  rw [hc, hp]
  dsimp only
  by_cases hz : p = 0
  · rw [if_pos hz]
  · rw [if_neg hz, hl]
    rfl

theorem getOrCreate_ok_hasPort {env : Env} {s : State} {p c : Nat}
    (h : (getOrCreateInstance env s).1 = Except.ok (p, c)) :
    hasPort (getOrCreateInstance env s).2.instances p = true := by
  cases hla : liveAssigned s with
  | some pci =>
      rcases pci with ⟨p', c', i'⟩
      rw [getOrCreate_of_liveAssigned_some hla] at h ⊢
      simp at h
      obtain ⟨hpp, _⟩ := h
      subst hpp
      obtain ⟨_, _, _, hl⟩ := liveAssigned_eq_some.1 hla
      have h1 : hasPort s.instances p' = true := by
        rw [hasPort_eq_isSome, hl]
        rfl
      rw [show ((Except.ok (p', c'),
          { s with instances := setLastUsed p' env.now s.instances }) :
          Except PoolError (Nat × Nat) × State).2.instances =
          setLastUsed p' env.now s.instances from rfl]
      rw [hasPort_congr_fst p' (setLastUsed_map_fst p' env.now s.instances)]
      exact h1
  | none =>
      rw [getOrCreate_of_liveAssigned_none hla] at h ⊢
      obtain ⟨_, _, _, _, hinst, _, _, _⟩ := spawnAtPool_ok h
      rw [show (spawnFlow env s).2 = (spawnAtPool env (evictIfFull env.closeErr s)).2 from rfl,
        hinst]
      apply hasPort_of_mem
      exact List.mem_append_right _ (List.mem_singleton.2 rfl)

theorem not_mem_map_fst_of_hasPort_false {l : Pool} {q : Nat}
    (h : hasPort l q = false) : q ∉ l.map (fun e => e.1) := by
  intro hmem
  obtain ⟨e, hel, hfst⟩ := List.mem_map.1 hmem
  have hqe : (q, e.2) ∈ l := by
    rw [← hfst]
    simpa using hel
  rw [hasPort_of_mem hqe] at h
  cases h

theorem evictIfFull_sublist (b : Bool) (s : State) :
    (evictIfFull b s).instances.Sublist s.instances := by
  unfold evictIfFull
  split
  · cases hfo : findOldest s.instances with
    | none => exact List.Sublist.refl _
    | some p =>
        dsimp only
        by_cases hp : p = 0
        · rw [if_pos hp]
        · rw [if_neg hp, killInstance_instances]
          exact List.filter_sublist _
  · exact List.Sublist.refl _

theorem touchAssigned_map_fst (n : Nat) (t : State) :
    (touchAssigned n t).instances.map (fun e => e.1) = t.instances.map (fun e => e.1) := by
  unfold touchAssigned
  cases t.assignedPort with
  | none => rfl
  | some ap =>
      dsimp only
      split
      · exact setLastUsed_map_fst ap n t.instances
      · rfl

/-- For a call that obtained a worker, `proxyToolCall` is the normalization of
the forwarded call's outcome paired with the `lastUsed`-refreshed state. -/
theorem proxyToolCall_eq {penv : ProxyEnv} {s : State} {p c : Nat}
    (hW : (getOrCreateInstance penv.env s).1 = Except.ok (p, c)) :
    proxyToolCall penv s =
      ((match penv.callResult with
        | Except.error msg =>
            Except.ok { content := [ContentItem.text ("Error: " ++ msg)], isError := true }
        | Except.ok r =>
            match r.content with
            | some cc => Except.ok { content := cc, isError := r.isError }
            | none =>
                Except.ok { content := [ContentItem.text (stringifyRemote r)], isError := false }),
       touchAssigned penv.env.now (getOrCreateInstance penv.env s).2) := by
  have hG : getOrCreateInstance penv.env s =
      (Except.ok (p, c), (getOrCreateInstance penv.env s).2) := by
    rw [← hW]
  unfold proxyToolCall
  rw [hG]
  cases penv.callResult with
  | error msg => rfl
  | ok r =>
      rcases r with ⟨rc, rie⟩
      cases rc with
      | some cc => rfl
      | none => rfl

/-! Claim theorems. -/

/-- C1: in a call with no live assigned worker, a pool at capacity
(`MAX_INSTANCES` entries, pairwise-distinct nonzero ports) that succeeds,
exactly one worker — the one found by the scan, whose `lastUsed` is minimal
across the whole pool — is killed and removed before the new worker is
appended, so the pool keeps its size and stays within `MAX_INSTANCES`. -/
theorem C1_lru_eviction (env : Env) (s : State) (q c : Nat)
    (hNoLive : liveAssigned s = none)
    (hFull : MAX_INSTANCES ≤ s.instances.length)
    (hCap : s.instances.length ≤ MAX_INSTANCES)
    (hNodup : (s.instances.map (fun e => e.1)).Nodup)
    (hPorts : ∀ e ∈ s.instances, e.1 ≠ 0)
    (hOk : (getOrCreateInstance env s).1 = Except.ok (q, c)) :
    ∃ p i, findOldest s.instances = some p ∧ (p, i) ∈ s.instances ∧
      (∀ e ∈ s.instances, i.lastUsed ≤ e.2.lastUsed) ∧
      (getOrCreateInstance env s).2.instances =
        removePort p s.instances ++
          [(q, { client := env.newClient, lastUsed := env.now, sessionId := env.sessionId })] ∧
      (getOrCreateInstance env s).2.instances.length = s.instances.length ∧
      (getOrCreateInstance env s).2.instances.length ≤ MAX_INSTANCES := by
  have hne : s.instances ≠ [] := by
    intro h0
    rw [h0] at hFull
    simp [MAX_INSTANCES] at hFull
  obtain ⟨p, hfo⟩ := findOldest_isSome_of_ne_nil hne
  obtain ⟨i, hmem, hmin⟩ := findOldest_spec hfo
  have hp0 : p ≠ 0 := hPorts (p, i) hmem
  have hev : evictIfFull env.closeErr s = { s with instances := removePort p s.instances } := by
    unfold evictIfFull
    rw [if_pos hFull, hfo]
    dsimp only
    rw [if_neg hp0]
    unfold killInstance
    cases hlk : lookupInst p s.instances with
    | none =>
        have hs := lookupInst_isSome_of_mem hmem
        rw [hlk] at hs
        simp at hs
    | some j => rfl
  rw [getOrCreate_of_liveAssigned_none hNoLive] at hOk ⊢
  obtain ⟨hfa, hcc, hr, hco, hinst, hnp2, hap, hac⟩ := spawnAtPool_ok hOk
  have hinstE : (spawnFlow env s).2.instances =
      removePort p s.instances ++
        [(q, { client := env.newClient, lastUsed := env.now, sessionId := env.sessionId })] := by
    rw [show (spawnFlow env s).2 = (spawnAtPool env (evictIfFull env.closeErr s)).2 from rfl,
      hinst, hev]
  have hlen := removePort_length_of_nodup hNodup hmem
  have hlen5 : (spawnFlow env s).2.instances.length = s.instances.length := by
    rw [hinstE, List.length_append]
    simp only [List.length_singleton]
    omega
  exact ⟨p, i, hfo, hmem, hmin, hinstE, hlen5, by rw [hlen5]; exact hCap⟩

/-- C1 witness: a full pool of ten workers; the least recently used (port
9003) is evicted and the new worker lands on port 9010, keeping the size at
ten. -/
theorem C1_lru_eviction_witness :
    (liveAssigned stateTenC = none ∧ MAX_INSTANCES ≤ stateTenC.instances.length ∧
      stateTenC.instances.length ≤ MAX_INSTANCES ∧
      (stateTenC.instances.map (fun e => e.1)).Nodup ∧
      (∀ e ∈ stateTenC.instances, e.1 ≠ 0) ∧
      (getOrCreateInstance envFreeC stateTenC).1 = Except.ok (9010, 7)) ∧
    (∃ p i, findOldest stateTenC.instances = some p ∧ (p, i) ∈ stateTenC.instances ∧
      (∀ e ∈ stateTenC.instances, i.lastUsed ≤ e.2.lastUsed) ∧
      (getOrCreateInstance envFreeC stateTenC).2.instances =
        removePort p stateTenC.instances ++
          [(9010, ⟨envFreeC.newClient, envFreeC.now, envFreeC.sessionId⟩)] ∧
      (getOrCreateInstance envFreeC stateTenC).2.instances.length =
        stateTenC.instances.length ∧
      (getOrCreateInstance envFreeC stateTenC).2.instances.length ≤ MAX_INSTANCES) :=
  ⟨⟨rfl, by decide, by decide, by decide, by decide, rfl⟩,
    C1_lru_eviction envFreeC stateTenC 9010 7 rfl (by decide) (by decide) (by decide)
      (by decide) rfl⟩

set_option maxRecDepth 40000 in
/-- C3 counterexample: the wrap of the scan applies only after a rejected
candidate, and the cursor is set to the allocated port plus one, so after
the port `BASE_PORT + 100 = 9100` has been allocated the cursor stands at
9101 and the next spawn allocates port 9101 — outside `[9000, 9100]`.  The
state is reached from the initial state by 101 spawn-and-kill rounds. -/
theorem C3_port_range_counterexample :
    (drive 101).nextPort = BASE_PORT + 101 ∧
    (getOrCreateInstance envFreeC (drive 101)).1 = Except.ok (9101, 7) ∧
    ¬(9101 ≤ BASE_PORT + 100) :=
  ⟨rfl, rfl, by decide⟩

/-- C3 amended: a spawned port is distinct from every worker live in the pool
at allocation time (so with pairwise-distinct ports the pool stays
pairwise-distinct) and is reported free by the OS probe; it lies in
`[BASE_PORT, BASE_PORT + 100]` unless it is the scan's unwrapped starting
cursor itself, which can exceed `BASE_PORT + 100` after an allocation at the
top of the range. -/
theorem C3_port_allocation_amended (env : Env) (s : State) (q c : Nat)
    (hNoLive : liveAssigned s = none)
    (hNext : BASE_PORT ≤ s.nextPort)
    (hOk : (getOrCreateInstance env s).1 = Except.ok (q, c)) :
    hasPort (evictIfFull env.closeErr s).instances q = false ∧
    env.busy q = false ∧
    (q = s.nextPort ∨ (BASE_PORT ≤ q ∧ q ≤ BASE_PORT + 100)) ∧
    ((s.instances.map (fun e => e.1)).Nodup →
      ((getOrCreateInstance env s).2.instances.map (fun e => e.1)).Nodup) := by
  rw [getOrCreate_of_liveAssigned_none hNoLive] at hOk ⊢
  obtain ⟨hfa, hcc, hr, hco, hinst, _, _, _⟩ := spawnAtPool_ok hOk
  have hnp : (evictIfFull env.closeErr s).nextPort = s.nextPort := evictIfFull_nextPort _ _
  have hspec := findPortGo_spec 100 (evictIfFull env.closeErr s).nextPort q
    (by rw [hnp]; exact hNext) hfa
  refine ⟨hspec.1, hspec.2.1, ?_, ?_⟩
  · rcases hspec.2.2 with h | h
    · left
      rw [← hnp]
      exact h
    · right
      exact h
  · intro hN
    have hsub : ((evictIfFull env.closeErr s).instances.map (fun e => e.1)).Sublist
        (s.instances.map (fun e => e.1)) :=
      (evictIfFull_sublist env.closeErr s).map (fun e => e.1)
    have hN1 : ((evictIfFull env.closeErr s).instances.map (fun e => e.1)).Nodup :=
      hN.sublist hsub
    rw [show (spawnFlow env s).2 = (spawnAtPool env (evictIfFull env.closeErr s)).2 from rfl,
      hinst, List.map_append, List.nodup_append]
    refine ⟨hN1, by simp, ?_⟩
    intro a ha hb
    have hq : a = q := by simpa using hb
    subst hq
    exact not_mem_map_fst_of_hasPort_false hspec.1 ha

/-- C3 amended witness: the very first allocation from the initial state gives
port 9000 = the cursor, tracked by no one and inside the range. -/
theorem C3_port_allocation_amended_witness :
    (liveAssigned initialState = none ∧ BASE_PORT ≤ initialState.nextPort ∧
      (getOrCreateInstance envFreeC initialState).1 = Except.ok (9000, 7)) ∧
    hasPort (evictIfFull envFreeC.closeErr initialState).instances 9000 = false ∧
    envFreeC.busy 9000 = false ∧
    (9000 = initialState.nextPort ∨ (BASE_PORT ≤ 9000 ∧ 9000 ≤ BASE_PORT + 100)) := by
  have h := C3_port_allocation_amended envFreeC initialState 9000 7 rfl (by decide) rfl
  exact ⟨⟨rfl, by decide, rfl⟩, h.1, h.2.1, h.2.2.1⟩

/-- C5: when the call obtained a worker and forwarding fails — the channel
throws, or the remote returns an error-flagged result (with its `content`
field present, as the SDK's result schema guarantees) — the dispatcher
returns a structured `{ content, isError := true }` value instead of
raising, the pool's membership is unchanged from the moment the worker was
obtained, and that worker is still registered. -/
theorem C5_proxy_error_normalized (penv : ProxyEnv) (s : State) (p c : Nat)
    (hW : (getOrCreateInstance penv.env s).1 = Except.ok (p, c))
    (hFail : (∃ msg, penv.callResult = Except.error msg) ∨
      (∃ r, penv.callResult = Except.ok r ∧ r.isError = true ∧ r.content.isSome = true)) :
    ∃ res, (proxyToolCall penv s).1 = Except.ok res ∧ res.isError = true ∧
      (proxyToolCall penv s).2.instances.map (fun e => e.1) =
        (getOrCreateInstance penv.env s).2.instances.map (fun e => e.1) ∧
      hasPort (proxyToolCall penv s).2.instances p = true := by
  have hpe := proxyToolCall_eq hW
  have hmap : (proxyToolCall penv s).2.instances.map (fun e => e.1) =
      (getOrCreateInstance penv.env s).2.instances.map (fun e => e.1) := by
    rw [hpe]
    exact touchAssigned_map_fst penv.env.now (getOrCreateInstance penv.env s).2
  have hhp : hasPort (proxyToolCall penv s).2.instances p = true := by
    rw [hasPort_congr_fst p hmap]
    exact getOrCreate_ok_hasPort hW
  rcases hFail with ⟨msg, hmsg⟩ | ⟨r, hcr, hie, hcs⟩
  · refine ⟨{ content := [ContentItem.text ("Error: " ++ msg)], isError := true },
      ?_, rfl, hmap, hhp⟩
    rw [hpe, hmsg]
  · obtain ⟨cc, hcc⟩ := Option.isSome_iff_exists.1 hcs
    refine ⟨{ content := cc, isError := r.isError }, ?_, hie, hmap, hhp⟩
    rw [hpe, hcr]
    dsimp only
    rw [hcc]

/-- C5 witness: a forwarded call that throws `boom` against a freshly spawned
worker yields an error-flagged result and leaves the worker registered. -/
theorem C5_proxy_error_normalized_witness :
    ((getOrCreateInstance penvThrowC.env initialState).1 = Except.ok (9000, 7) ∧
      penvThrowC.callResult = Except.error "boom") ∧
    (∃ res, (proxyToolCall penvThrowC initialState).1 = Except.ok res ∧ res.isError = true ∧
      (proxyToolCall penvThrowC initialState).2.instances.map (fun e => e.1) =
        (getOrCreateInstance penvThrowC.env initialState).2.instances.map (fun e => e.1) ∧
      hasPort (proxyToolCall penvThrowC initialState).2.instances 9000 = true) :=
  ⟨⟨rfl, rfl⟩,
    C5_proxy_error_normalized penvThrowC initialState 9000 7 rfl (Or.inl ⟨"boom", rfl⟩)⟩

/-- C6: one tick of the idle reaper, on a pool with pairwise-distinct ports,
is exactly the filter that kills every worker whose idle time strictly
exceeds `INSTANCE_TIMEOUT_MS` and leaves every other worker — including its
`lastUsed` — untouched. -/
theorem C6_idle_reaper (b : Bool) (now : Nat) (s : State)
    (hN : (s.instances.map (fun e => e.1)).Nodup) :
    cleanupTick b now s =
      { s with instances := s.instances.filter (fun e => !timedOut now e.2) } ∧
    (∀ e ∈ s.instances, INSTANCE_TIMEOUT_MS < now - e.2.lastUsed →
      e ∉ (cleanupTick b now s).instances) ∧
    (∀ e ∈ s.instances, ¬(INSTANCE_TIMEOUT_MS < now - e.2.lastUsed) →
      e ∈ (cleanupTick b now s).instances) := by
  have h1 := cleanupTick_eq_filter b now s hN
  refine ⟨h1, ?_, ?_⟩
  · intro e he ht hmem
    rw [h1] at hmem
    have := (List.mem_filter.1 hmem).2
    simp [timedOut] at this
    omega
  · intro e he ht
    rw [h1]
    apply List.mem_filter.2
    refine ⟨he, ?_⟩
    simp [timedOut]
    omega

/-- C6 witness: at `now` = 31 minutes, the worker idle 31 minutes (port 9000)
is removed and the one idle 29 minutes (port 9001) survives unchanged. -/
theorem C6_idle_reaper_witness :
    (stateIdleC.instances.map (fun e => e.1)).Nodup ∧
    cleanupTick false 1860000 stateIdleC =
      { stateIdleC with
          instances := stateIdleC.instances.filter (fun e => !timedOut 1860000 e.2) } ∧
    (cleanupTick false 1860000 stateIdleC).instances = [(9001, ⟨2, 120000, 5⟩)] :=
  ⟨by decide, (C6_idle_reaper false 1860000 stateIdleC (by decide)).1, rfl⟩

/-- C7: `waitForServer` with the 45-second timeout resolves exactly at the
first probe that gets any response — probes firing at the 3000ms bootstrap
delay plus 1000ms after each earlier failed probe — and, when no probe ever
gets a response, rejects with the timeout error. -/
theorem C7_wait_for_server (respond : Nat → Bool) (errDelay : Nat → Nat) :
    (∀ k t, waitForServer respond errDelay 45000 = Except.ok (k, t) →
      respond k = true ∧ (∀ j < k, respond j = false) ∧ t = pollTime errDelay k) ∧
    ((∀ k, respond k = false) →
      waitForServer respond errDelay 45000 = Except.error "Timeout waiting for server") := by
  constructor
  · intro k t h
    have h0 : waitGo respond errDelay 45000 0 (pollTime errDelay 0) = Except.ok (k, t) := h
    obtain ⟨h1, _, h3, h4⟩ := waitGo_ok (45000 + 1000) 0 k t
      (by rw [show pollTime errDelay 0 = 3000 from rfl]; omega) h0
    exact ⟨h1, fun j hj => h3 j (Nat.zero_le j) hj, h4⟩
  · intro hall
    exact waitGo_all_fail hall (45000 + 1000) 0 3000 (by omega)

/-- C7 witness: an always-responding probe resolves at the first attempt, at
time 3000; a never-responding probe rejects with the timeout error. -/
theorem C7_wait_for_server_witness :
    waitForServer (fun _ => true) (fun _ => 0) 45000 = Except.ok (0, 3000) ∧
    ((fun _ => true : Nat → Bool) 0 = true ∧ (3000 : Nat) = pollTime (fun _ => 0) 0) ∧
    ((∀ k, (fun _ => false : Nat → Bool) k = false) ∧
      waitForServer (fun _ => false) (fun _ => 0) 45000 =
        Except.error "Timeout waiting for server") := by
  have hok : waitForServer (fun _ => true) (fun _ => 0) 45000 = Except.ok (0, 3000) := by
    unfold waitForServer
    unfold waitGo
    simp
  have h1 := (C7_wait_for_server (fun _ => true) (fun _ => 0)).1 0 3000 hok
  have h2 := (C7_wait_for_server (fun _ => false) (fun _ => 0)).2 (fun k => rfl)
  exact ⟨hok, ⟨h1.1, h1.2.2⟩, fun k => rfl, h2⟩

/-- C2: whenever the session's assigned worker is still present in the pool,
`getOrCreateInstance` refreshes that worker's `lastUsed` to the current time
and returns the identical worker (same port, same client) without advancing
the port cursor and without changing the pool's membership; consequently a
second call with no intervening kill or exit again returns the same worker
and spawns nothing. -/
theorem C2_return_existing (env env2 : Env) (s : State) (p c : Nat) (i : Instance)
    (hc : s.assignedClient = some c) (hp : s.assignedPort = some p) (hz : p ≠ 0)
    (hl : lookupInst p s.instances = some i) :
    getOrCreateInstance env s =
      (Except.ok (p, c), { s with instances := setLastUsed p env.now s.instances }) ∧
    (getOrCreateInstance env s).2.instances.map (fun e => e.1) =
      s.instances.map (fun e => e.1) ∧
    (getOrCreateInstance env s).2.nextPort = s.nextPort ∧
    (getOrCreateInstance env s).2.assignedPort = s.assignedPort ∧
    (getOrCreateInstance env s).2.assignedClient = s.assignedClient ∧
    (getOrCreateInstance env2 (getOrCreateInstance env s).2).1 = Except.ok (p, c) := by
  have hla : liveAssigned s = some (p, c, i) := liveAssigned_eq_some.2 ⟨hc, hp, hz, hl⟩
  have h1 : getOrCreateInstance env s =
      (Except.ok (p, c), { s with instances := setLastUsed p env.now s.instances }) :=
    getOrCreate_of_liveAssigned_some hla
  have hl2 : lookupInst p (setLastUsed p env.now s.instances) =
      some { i with lastUsed := env.now } := lookupInst_setLastUsed_self env.now hl
  have hla2 : liveAssigned { s with instances := setLastUsed p env.now s.instances } =
      some (p, c, { i with lastUsed := env.now }) :=
    liveAssigned_eq_some.2 ⟨hc, hp, hz, hl2⟩
  have h2 : getOrCreateInstance env2 { s with instances := setLastUsed p env.now s.instances } =
      (Except.ok (p, c),
       { s with instances := setLastUsed p env2.now (setLastUsed p env.now s.instances) }) :=
    getOrCreate_of_liveAssigned_some hla2
  refine ⟨h1, ?_, ?_, ?_, ?_, ?_⟩
  · rw [h1]
    exact setLastUsed_map_fst p env.now s.instances
  · rw [h1]
  · rw [h1]
  · rw [h1]
  · rw [h1, h2]

/-- C2 witness: a concrete state with a live assignment at port 9000. -/
theorem C2_return_existing_witness :
    (stateAssignedC.assignedClient = some 7 ∧ stateAssignedC.assignedPort = some 9000 ∧
      (9000 : Nat) ≠ 0 ∧ lookupInst 9000 stateAssignedC.instances = some ⟨7, 0, 5⟩) ∧
    getOrCreateInstance envFreeC stateAssignedC =
      (Except.ok (9000, 7),
       { stateAssignedC with instances := setLastUsed 9000 envFreeC.now stateAssignedC.instances }) ∧
    (getOrCreateInstance envFreeC (getOrCreateInstance envFreeC stateAssignedC).2).1 =
      Except.ok (9000, 7) := by
  have h := C2_return_existing envFreeC envFreeC stateAssignedC 9000 7 ⟨7, 0, 5⟩
    rfl rfl (by decide) rfl
  exact ⟨⟨rfl, rfl, by decide, rfl⟩, h.1, h.2.2.2.2.2⟩

/-- C4: if a `getOrCreateInstance` call fails (port exhaustion, readiness
timeout, or connection failure), the failure propagates as a thrown error and
the call leaves the pool's membership exactly as it stood when the
allocate/spawn attempt began (i.e. after the eviction step) and the session's
assignment exactly as before the call — no partially registered worker is
added. -/
theorem C4_spawn_failure_atomic (env : Env) (s : State) (e : PoolError)
    (hErr : (getOrCreateInstance env s).1 = Except.error e) :
    (getOrCreateInstance env s).2.instances = (evictIfFull env.closeErr s).instances ∧
    (getOrCreateInstance env s).2.assignedPort = s.assignedPort ∧
    (getOrCreateInstance env s).2.assignedClient = s.assignedClient := by
  cases hla : liveAssigned s with
  | some pci =>
      rcases pci with ⟨p, c, i⟩
      rw [getOrCreate_of_liveAssigned_some hla] at hErr
      simp at hErr
  | none =>
      rw [getOrCreate_of_liveAssigned_none hla] at hErr ⊢
      exact spawnFlow_err hErr

/-- C4 witness: a readiness timeout on the very first spawn leaves the empty
pool and the empty assignment untouched. -/
theorem C4_spawn_failure_atomic_witness :
    (getOrCreateInstance envNoReadyC initialState).1 = Except.error PoolError.startupTimeout ∧
    (getOrCreateInstance envNoReadyC initialState).2.instances =
      (evictIfFull envNoReadyC.closeErr initialState).instances ∧
    (getOrCreateInstance envNoReadyC initialState).2.assignedPort = initialState.assignedPort ∧
    (getOrCreateInstance envNoReadyC initialState).2.assignedClient =
      initialState.assignedClient :=
  ⟨rfl, C4_spawn_failure_atomic envNoReadyC initialState PoolError.startupTimeout rfl⟩

/-- C8: killing is idempotent — when the port has no live entry the kill is a
no-op, so killing twice equals killing once — and the outcome of closing the
call channel (`closeErr`, swallowed by the empty catch) never influences
termination and removal. -/
theorem C8_kill_idempotent (s : State) (p : Nat) (b b' : Bool) :
    (lookupInst p s.instances = none → killInstance b p s = s) ∧
    killInstance b p (killInstance b' p s) = killInstance b' p s ∧
    killInstance b p s = killInstance b' p s := by
  refine ⟨fun h => killInstance_of_none h, ?_, rfl⟩
  apply killInstance_of_none
  rw [killInstance_instances]
  exact lookupInst_removePort_self p s.instances

/-- C8 witness: killing an untracked port is a no-op, and a double kill equals
a single kill, at a concrete state. -/
theorem C8_kill_idempotent_witness :
    lookupInst 9000 initialState.instances = none ∧
    killInstance true 9000 initialState = initialState ∧
    killInstance true 9000 (killInstance false 9000 stateAssignedC) =
      killInstance false 9000 stateAssignedC :=
  ⟨rfl, (C8_kill_idempotent initialState 9000 true false).1 rfl,
    (C8_kill_idempotent stateAssignedC 9000 true false).2.1⟩

/-- C9 (implicit tie-break): the eviction scan, which iterates the
insertion-ordered map with a strict `<` comparison, selects exactly the port
of the first entry in insertion order attaining the minimal `lastUsed` — a
deterministic tie-break in favour of the earliest-inserted worker. -/
theorem C9_eviction_tiebreak (l : Pool) : findOldest l = firstMinPort l :=
  findOldest_eq_firstMinPort l

/-- C10: every worker returned by a successful `getOrCreateInstance` is present
in the pool at return time; `killInstance` never clears the session assignment
(leaving it stale); and a stale assignment (assigned port absent from the
pool) makes `getOrCreateInstance` take the spawn path, returning a freshly
connected client rather than the dead cached one. -/
theorem C10_returned_worker_registered (env : Env) (s : State) :
    (∀ p c, (getOrCreateInstance env s).1 = Except.ok (p, c) →
      hasPort (getOrCreateInstance env s).2.instances p = true) ∧
    (∀ b q, (killInstance b q s).assignedPort = s.assignedPort ∧
      (killInstance b q s).assignedClient = s.assignedClient) ∧
    (∀ p c, s.assignedPort = some p → s.assignedClient = some c →
      lookupInst p s.instances = none →
      getOrCreateInstance env s = spawnFlow env s ∧
      (∀ q d, (getOrCreateInstance env s).1 = Except.ok (q, d) → d = env.newClient)) := by
  refine ⟨?_, ?_, ?_⟩
  · intro p c h
    exact getOrCreate_ok_hasPort h
  · intro b q
    exact ⟨killInstance_assignedPort b q s, killInstance_assignedClient b q s⟩
  · intro p c hp hc hl
    have hla : liveAssigned s = none := liveAssigned_none_of_stale hp hc hl
    refine ⟨getOrCreate_of_liveAssigned_none hla, ?_⟩
    intro q d h
    rw [getOrCreate_of_liveAssigned_none hla] at h
    exact (spawnAtPool_ok h).2.1

/-- C10 witness: after one spawn-and-kill round the assignment is stale; the
next call spawns a fresh worker on a new port and registers it. -/
theorem C10_returned_worker_registered_witness :
    ((drive 1).assignedPort = some 9000 ∧ (drive 1).assignedClient = some 7 ∧
      lookupInst 9000 (drive 1).instances = none) ∧
    (getOrCreateInstance envFreeC (drive 1)).1 = Except.ok (9001, 7) ∧
    hasPort (getOrCreateInstance envFreeC (drive 1)).2.instances 9001 = true ∧
    getOrCreateInstance envFreeC (drive 1) = spawnFlow envFreeC (drive 1) :=
  ⟨⟨rfl, rfl, rfl⟩, rfl,
    (C10_returned_worker_registered envFreeC (drive 1)).1 9001 7 rfl,
    ((C10_returned_worker_registered envFreeC (drive 1)).2.2 9000 7 rfl rfl rfl).1⟩

end BrowserPool
